import Mathlib

/-!
# Vulkan-Engine: formal model of the device-selection and submission core

The repository `Sakul6499/Vulkan-Engine` exposes a `ComputeEngine` built from
an instance, a selected physical device / queue family, a logical device and a
command-buffer allocator, with a synchronous record → submit → wait protocol
(`compute`, called `run` in the design document) and a teardown (`kill`,
called `shutdown` in the design document).  The engine core modules
(`logical_device.rs`, `abstract_engine.rs`, `compute_engine.rs`,
`graphical_engine.rs`) are declared by `src/lib.rs` but their sources are not
present in the checkout; where that code decides a property it is modelled
from the design document.  `src/s_vertex.rs` and the examples are present and
are embedded from the source directly.
-/

namespace VulkanEngine

/-! ## Physical-device selection (design document §4.2)

Modelled from the spec: the module `compute_engine.rs` / selection code is
absent from the checkout; the algorithm below follows §4.2 word for word:
enumeration order is preserved, each candidate is scored by device type
(discrete=100, integrated=50, virtual=25, software=1), candidates with no
queue family satisfying the requirements are rejected, within a candidate the
most specialized satisfying family wins (fewest supported-but-unrequired
flags, ties by lowest family index), and the highest-scoring candidate wins
with ties broken by first-enumerated. -/

inductive DeviceType
  | discrete
  | integrated
  | virtualGpu
  | software
deriving DecidableEq, Repr

def DeviceType.score : DeviceType → Nat
  | .discrete => 100
  | .integrated => 50
  | .virtualGpu => 25
  | .software => 1

structure QueueFamily where
  index : Nat
  compute : Bool
  graphics : Bool
  transfer : Bool
  queueCount : Nat
deriving DecidableEq, Repr

structure Requirements where
  needsCompute : Bool
  needsGraphics : Bool
deriving DecidableEq, Repr

structure PhysicalDeviceCandidate where
  deviceType : DeviceType
  families : List QueueFamily
deriving DecidableEq, Repr

/-- A family satisfies the requirements when it supports compute if
`needsCompute` and graphics if `needsGraphics`. -/
def familySatisfies (r : Requirements) (f : QueueFamily) : Bool :=
  (!r.needsCompute || f.compute) && (!r.needsGraphics || f.graphics)

/-- Number of capability flags the family supports beyond the required ones;
the "most specialized" family minimizes this. -/
def extraFlags (r : Requirements) (f : QueueFamily) : Nat :=
  (if f.compute && !r.needsCompute then 1 else 0) +
  (if f.graphics && !r.needsGraphics then 1 else 0) +
  (if f.transfer then 1 else 0)

/-- Strict preference between satisfying families: fewer extra flags, ties by
lower family index. -/
def famStrictlyBetter (r : Requirements) (g f : QueueFamily) : Bool :=
  extraFlags r g < extraFlags r f ||
    (extraFlags r g == extraFlags r f && g.index < f.index)

/-- Most specialized satisfying family of a family table, ties broken by
lowest family index; `none` when no family satisfies the requirements. -/
def pickFamily (r : Requirements) : List QueueFamily → Option QueueFamily
  | [] => none
  | f :: fs =>
    match pickFamily r fs with
    | none => if familySatisfies r f then some f else none
    | some g =>
      if familySatisfies r f then
        if famStrictlyBetter r g f then some g else some f
      else some g

inductive EngineError
  | initializationError
  | noSuitableDeviceError
  | resourceCreationError
  | submissionError
  | syncTimeoutError
  | recordingError
deriving DecidableEq, Repr

/-- Chosen family index plus the capability flags it was selected for. -/
structure QueueFamilySelection where
  familyIndex : Nat
  compute : Bool
  graphics : Bool
  transfer : Bool
deriving DecidableEq, Repr

def QueueFamily.toSelection (f : QueueFamily) : QueueFamilySelection :=
  { familyIndex := f.index, compute := f.compute, graphics := f.graphics,
    transfer := f.transfer }

/-- Best candidate/family pair of an enumeration: candidates with no
satisfying family are skipped, the highest score wins, and on a score tie the
first-enumerated candidate wins (the replacement condition is strict). -/
def selectBest (r : Requirements) :
    List PhysicalDeviceCandidate → Option (PhysicalDeviceCandidate × QueueFamily)
  | [] => none
  | c :: cs =>
    match pickFamily r c.families with
    | none => selectBest r cs
    | some f =>
      match selectBest r cs with
      | none => some (c, f)
      | some (c', f') =>
        if c.deviceType.score < c'.deviceType.score then some (c', f')
        else some (c, f)

/-- `PhysicalDeviceSelector.select`: fails with `NoSuitableDeviceError` when
no candidate/family pair satisfies the requirements. -/
def select (cands : List PhysicalDeviceCandidate) (r : Requirements) :
    Except EngineError (PhysicalDeviceCandidate × QueueFamilySelection) :=
  match selectBest r cands with
  | none => .error .noSuitableDeviceError
  | some (c, f) => .ok (c, f.toSelection)

/-- A candidate is conformant when some family of its table satisfies the
requirements. -/
def conformant (r : Requirements) (c : PhysicalDeviceCandidate) : Bool :=
  c.families.any (familySatisfies r)

/-! ## Engine state and GPU memory

Modelled from the spec: `logical_device.rs`, `abstract_engine.rs` and
`compute_engine.rs` are absent from the checkout.  The engine context
(instance, logical device with its queue family index, command-buffer
allocator) follows §2/§4.3–4.4 and the accessors the examples call
(`get_instance`, `get_logical_device`, `get_queue_family_index`,
`get_command_buffer_allocator`).  GPU-visible memory is a store of
integer buffers, enough for the buffer-copy and compute-dispatch scenarios
of the examples. -/

structure LogicalDevice where
  device : Nat
  queueFamilyIndex : Nat
deriving DecidableEq, Repr

def LogicalDevice.get_queue_family_index (d : LogicalDevice) : Nat :=
  d.queueFamilyIndex

def LogicalDevice.get_device (d : LogicalDevice) : Nat :=
  d.device

structure ComputeEngine where
  inst : Nat
  logicalDevice : LogicalDevice
  commandBufferAllocator : Nat
deriving DecidableEq, Repr

def ComputeEngine.get_instance (e : ComputeEngine) : Nat := e.inst

def ComputeEngine.get_logical_device (e : ComputeEngine) : LogicalDevice :=
  e.logicalDevice

def ComputeEngine.get_command_buffer_allocator (e : ComputeEngine) : Nat :=
  e.commandBufferAllocator

/-- A host-visible buffer: a length and the integer content at each index. -/
structure Buf where
  len : Nat
  data : Nat → Int

/-- GPU-visible memory: a store of buffers indexed by buffer id. -/
structure GpuState where
  buffers : Nat → Buf

/-- One recorded GPU command: a full-buffer copy (example 002) or a compute
dispatch applying a per-index function over one buffer (example 003). -/
inductive Command
  | copyBuffer (src dst : Nat)
  | dispatch (buf : Nat) (f : Nat → Int → Int)

/-- A finalized, immutable command sequence (design document §3). -/
def CommandRecording := List Command

def execCommand (g : GpuState) : Command → GpuState
  | .copyBuffer s d =>
    let sb := g.buffers s
    { buffers := fun i =>
        if i = d then
          { len := (g.buffers d).len,
            data := fun j => if j < sb.len then sb.data j else (g.buffers d).data j }
        else g.buffers i }
  | .dispatch b f =>
    let bb := g.buffers b
    { buffers := fun i =>
        if i = b then
          { len := bb.len,
            data := fun j => if j < bb.len then f j (bb.data j) else bb.data j }
        else g.buffers i }

def execRecording (rec : CommandRecording) (g : GpuState) : GpuState :=
  rec.foldl execCommand g

/-! ## Submission & synchronization protocol (design document §4.5)

Modelled from the spec: `run`/`compute` executes synchronously on the calling
thread: invoke the recording callback exactly once; on failure abort with
nothing submitted; otherwise submit, producing a `SubmissionTicket`, and
block until the ticket signals before returning.  The protocol steps are
traced as events so that invocation counts and execution windows are
observable. -/

inductive Event
  | recordStart
  | recordEnd
  | submit
  | waitStart
  | waitEnd
deriving DecidableEq, Repr

/-- Submission bookkeeping: how many submissions were made and whether a
`SubmissionTicket` is outstanding (pending, not yet waited on). -/
structure SyncState where
  submissions : Nat
  outstanding : Bool
deriving DecidableEq, Repr

/-- The sync state of a freshly constructed engine: zero prior submissions,
no outstanding ticket. -/
def SyncState.initial : SyncState := { submissions := 0, outstanding := false }

/-- The recording callback: read-only access to the engine context, returning
a finalized recording or failing. -/
def RecordFn := ComputeEngine → Except EngineError CommandRecording

/-- Everything observable after one `compute` call: the engine context (taken
by shared reference, so returned unchanged iff the call does not mutate it),
the sync bookkeeping, the GPU memory, the protocol event trace and the call
result. -/
structure RunResult where
  engine : ComputeEngine
  sync : SyncState
  gpu : GpuState
  trace : List Event
  result : Except EngineError Unit

/-- `ComputeEngine.compute` (the spec's `run`): record → submit → wait,
synchronously.  The callback is invoked exactly once; a recording failure
aborts the call with nothing submitted; on success the call returns only
after the wait resolves, so the resulting GPU memory already reflects the
whole recording. -/
def ComputeEngine.compute (e : ComputeEngine) (s : SyncState) (g : GpuState)
    (recordFn : RecordFn) : RunResult :=
  match recordFn e with
  | .error err =>
    { engine := e, sync := s, gpu := g,
      trace := [.recordStart, .recordEnd], result := .error err }
  | .ok rec =>
    { engine := e,
      sync := { submissions := s.submissions + 1, outstanding := false },
      gpu := execRecording rec g,
      trace := [.recordStart, .recordEnd, .submit, .waitStart, .waitEnd],
      result := .ok () }

/-- Two sequential `compute` calls on the same engine: the second starts from
the state the first one left. -/
def ComputeEngine.computeTwice (e : ComputeEngine) (s : SyncState)
    (g : GpuState) (f1 f2 : RecordFn) : RunResult :=
  let r1 := e.compute s g f1
  let r2 := r1.engine.compute r1.sync r1.gpu f2
  { engine := r2.engine, sync := r2.sync, gpu := r2.gpu,
    trace := r1.trace ++ r2.trace, result := r2.result }

/-- Number of submitted-but-not-yet-signaled tickets after a trace prefix. -/
def pending (t : List Event) : Nat :=
  t.foldl (fun n ev =>
    match ev with
    | .submit => n + 1
    | .waitEnd => n - 1
    | _ => n) 0

/-- `ComputeEngine.kill` (the spec's `shutdown`): if a submission is
outstanding, wait for it; otherwise release resources with nothing to wait
on.  Returns the sync state, the events of the teardown wait, and success. -/
def ComputeEngine.kill (e : ComputeEngine) (s : SyncState) :
    SyncState × List Event × Except EngineError Unit :=
  if s.outstanding then
    ({ s with outstanding := false }, [.waitStart, .waitEnd], .ok ())
  else (s, [], .ok ())

/-! ## `SVertex` (src/s_vertex.rs)

`SVertex` is `#[repr(C)] struct SVertex { position: [f32; 2] }` deriving
`Vertex, BufferContents, Zeroable, Copy, Clone, PartialEq, PartialOrd`.
An `f32` is embedded as its IEEE-754 binary32 bit pattern (a `Nat` below
`2^32`); IEEE equality holds between two non-NaN values iff they have the
same bits or both are zeros (`+0.0 == -0.0`). -/

/-- IEEE-754 binary32 NaN: exponent field all ones, mantissa nonzero. -/
def f32IsNan (bits : Nat) : Bool :=
  (bits / 2 ^ 23) % 256 = 255 && bits % 2 ^ 23 ≠ 0

/-- IEEE-754 binary32 zero (either sign): all bits below the sign bit zero. -/
def f32IsZero (bits : Nat) : Bool :=
  bits % 2 ^ 31 = 0 && bits / 2 ^ 31 ≤ 1 && bits < 2 ^ 32

/-- IEEE-754 binary32 equality on bit patterns: never true for NaN operands;
otherwise true iff the bits agree or both operands are zeros. -/
def f32Beq (a b : Nat) : Bool :=
  !f32IsNan a && !f32IsNan b && (a == b || (f32IsZero a && f32IsZero b))

/-- `SVertex`: the two `f32` components of `position` as bit patterns. -/
structure SVertex where
  position : Nat × Nat
deriving DecidableEq, Repr

/-- The derived `PartialEq`: componentwise on the single field `position`,
elementwise on the array, IEEE equality on each `f32`. -/
def SVertex.beq (a b : SVertex) : Bool :=
  f32Beq a.position.1 b.position.1 && f32Beq a.position.2 b.position.2

/-- The `Zeroable`-derived zero vertex: all bytes zero, so both components
are the bit pattern of `+0.0`. -/
def SVertex.zeroed : SVertex := { position := (0, 0) }

/-! ## Lemmas about family and candidate selection -/

lemma pickFamily_mem_of_some (r : Requirements) (fams : List QueueFamily) :
    ∀ f, pickFamily r fams = some f → f ∈ fams ∧ familySatisfies r f = true := by
  induction fams with
  | nil => intro f h; simp [pickFamily] at h
  | cons a fs ih =>
    intro f h
    cases hfs : pickFamily r fs with
    | none =>
      simp only [pickFamily, hfs] at h
      by_cases hsat : familySatisfies r a = true
      · rw [if_pos hsat] at h
        obtain rfl : a = f := by injection h
        exact ⟨List.mem_cons_self a fs, hsat⟩
      · rw [if_neg hsat] at h; cases h
    | some g =>
      simp only [pickFamily, hfs] at h
      have hg := ih g hfs
      by_cases hsat : familySatisfies r a = true
      · rw [if_pos hsat] at h
        by_cases hb : famStrictlyBetter r g a = true
        · rw [if_pos hb] at h
          obtain rfl : g = f := by injection h
          exact ⟨List.mem_cons_of_mem a hg.1, hg.2⟩
        · rw [if_neg hb] at h
          obtain rfl : a = f := by injection h
          exact ⟨List.mem_cons_self a fs, hsat⟩
      · rw [if_neg hsat] at h
        obtain rfl : g = f := by injection h
        exact ⟨List.mem_cons_of_mem a hg.1, hg.2⟩

lemma pickFamily_ne_none (r : Requirements) :
    ∀ fams (g : QueueFamily), g ∈ fams → familySatisfies r g = true →
      pickFamily r fams ≠ none := by
  intro fams
  induction fams with
  | nil => intro g hg; cases hg
  | cons a fs ih =>
    intro g hg hsat h
    rcases List.mem_cons.mp hg with rfl | hgfs
    · cases hfs : pickFamily r fs with
      | none =>
        simp only [pickFamily, hfs] at h
        rw [if_pos hsat] at h; cases h
      | some g' =>
        simp only [pickFamily, hfs] at h
        rw [if_pos hsat] at h
        by_cases hb : famStrictlyBetter r g' g = true
        · rw [if_pos hb] at h; cases h
        · rw [if_neg hb] at h; cases h
    · cases hfs : pickFamily r fs with
      | none => exact ih g hgfs hsat hfs
      | some g' =>
        simp only [pickFamily, hfs] at h
        by_cases hsa : familySatisfies r a = true
        · rw [if_pos hsa] at h
          by_cases hb : famStrictlyBetter r g' a = true
          · rw [if_pos hb] at h; cases h
          · rw [if_neg hb] at h; cases h
        · rw [if_neg hsa] at h; cases h

lemma pickFamily_none_iff (r : Requirements) (fams : List QueueFamily) :
    pickFamily r fams = none ↔ ∀ g ∈ fams, familySatisfies r g = false := by
  constructor
  · intro h g hg
    by_contra hsat
    rw [Bool.not_eq_false] at hsat
    exact pickFamily_ne_none r fams g hg hsat h
  · intro h
    cases hv : pickFamily r fams with
    | none => rfl
    | some f =>
      exfalso
      have hm := pickFamily_mem_of_some r fams f hv
      rw [h f hm.1] at hm
      exact Bool.false_ne_true hm.2

lemma famStrictlyBetter_true_iff (r : Requirements) (g f : QueueFamily) :
    famStrictlyBetter r g f = true ↔
      extraFlags r g < extraFlags r f ∨
        (extraFlags r g = extraFlags r f ∧ g.index < f.index) := by
  simp [famStrictlyBetter, Nat.lt_iff_add_one_le]

lemma pickFamily_minimal (r : Requirements) :
    ∀ (fams : List QueueFamily) f, pickFamily r fams = some f →
      ∀ g ∈ fams, familySatisfies r g = true →
        extraFlags r f < extraFlags r g ∨
          (extraFlags r f = extraFlags r g ∧ f.index ≤ g.index) := by
  intro fams
  induction fams with
  | nil => intro f h; simp [pickFamily] at h
  | cons a fs ih =>
    intro f h g hg hgsat
    cases hfs : pickFamily r fs with
    | none =>
      simp only [pickFamily, hfs] at h
      by_cases hsat : familySatisfies r a = true
      · rw [if_pos hsat] at h
        obtain rfl : a = f := by injection h
        rcases List.mem_cons.mp hg with rfl | hgfs
        · right; exact ⟨rfl, le_refl _⟩
        · exfalso
          rw [(pickFamily_none_iff r fs).mp hfs g hgfs] at hgsat
          exact Bool.false_ne_true hgsat
      · rw [if_neg hsat] at h; cases h
    | some g' =>
      simp only [pickFamily, hfs] at h
      by_cases hsat : familySatisfies r a = true
      · rw [if_pos hsat] at h
        by_cases hb : famStrictlyBetter r g' a = true
        · rw [if_pos hb] at h
          obtain rfl : g' = f := by injection h
          rcases List.mem_cons.mp hg with rfl | hgfs
          · rcases (famStrictlyBetter_true_iff r g' g).mp hb with hlt | ⟨heq, hidx⟩
            · exact Or.inl hlt
            · exact Or.inr ⟨heq, le_of_lt hidx⟩
          · exact ih g' hfs g hgfs hgsat
        · rw [if_neg hb] at h
          obtain rfl : a = f := by injection h
          rcases List.mem_cons.mp hg with rfl | hgfs
          · right; exact ⟨rfl, le_refl _⟩
          · have hih := ih g' hfs g hgfs hgsat
            have hnb : ¬(extraFlags r g' < extraFlags r a ∨
                (extraFlags r g' = extraFlags r a ∧ g'.index < a.index)) := by
              intro hcontra
              exact hb ((famStrictlyBetter_true_iff r g' a).mpr hcontra)
            push_neg at hnb
            rcases hih with hlt | ⟨heq, hidx⟩ <;> omega
      · rw [if_neg hsat] at h
        obtain rfl : g' = f := by injection h
        rcases List.mem_cons.mp hg with rfl | hgfs
        · exact absurd hgsat hsat
        · exact ih g' hfs g hgfs hgsat

lemma conformant_eq_false_iff (r : Requirements) (c : PhysicalDeviceCandidate) :
    conformant r c = false ↔ pickFamily r c.families = none := by
  rw [pickFamily_none_iff]
  unfold conformant
  constructor
  · intro h g hg
    by_contra hs
    rw [Bool.not_eq_false] at hs
    have hany : c.families.any (familySatisfies r) = true :=
      List.any_eq_true.mpr ⟨g, hg, hs⟩
    rw [h] at hany
    exact Bool.false_ne_true hany
  · intro h
    by_contra hc
    rw [Bool.not_eq_false] at hc
    obtain ⟨g, hg, hs⟩ := List.any_eq_true.mp hc
    rw [h g hg] at hs
    exact Bool.false_ne_true hs

lemma selectBest_none (r : Requirements) :
    ∀ cs, selectBest r cs = none → ∀ c ∈ cs, conformant r c = false := by
  intro cs
  induction cs with
  | nil => intro _ c hc; cases hc
  | cons a cs' ih =>
    intro h c hc
    cases ha : pickFamily r a.families with
    | none =>
      simp only [selectBest, ha] at h
      rcases List.mem_cons.mp hc with rfl | hcs
      · exact (conformant_eq_false_iff r c).mpr ha
      · exact ih h c hcs
    | some fa =>
      exfalso
      cases hcs' : selectBest r cs' with
      | none => simp only [selectBest, ha, hcs'] at h; cases h
      | some p =>
        obtain ⟨c', f'⟩ := p
        simp only [selectBest, ha, hcs'] at h
        by_cases hlt : a.deviceType.score < c'.deviceType.score
        · rw [if_pos hlt] at h; cases h
        · rw [if_neg hlt] at h; cases h

lemma selectBest_pickFamily (r : Requirements) :
    ∀ cs c f, selectBest r cs = some (c, f) →
      pickFamily r c.families = some f := by
  intro cs
  induction cs with
  | nil => intro c f h; simp [selectBest] at h
  | cons a cs' ih =>
    intro c f h
    cases ha : pickFamily r a.families with
    | none =>
      simp only [selectBest, ha] at h
      exact ih c f h
    | some fa =>
      cases hcs' : selectBest r cs' with
      | none =>
        simp only [selectBest, ha, hcs'] at h
        obtain ⟨rfl, rfl⟩ : a = c ∧ fa = f := by
          constructor <;> [exact congrArg Prod.fst (Option.some.inj h);
            exact congrArg Prod.snd (Option.some.inj h)]
        exact ha
      | some p =>
        obtain ⟨c', f'⟩ := p
        simp only [selectBest, ha, hcs'] at h
        by_cases hlt : a.deviceType.score < c'.deviceType.score
        · rw [if_pos hlt] at h
          obtain ⟨rfl, rfl⟩ : c' = c ∧ f' = f := by
            constructor <;> [exact congrArg Prod.fst (Option.some.inj h);
              exact congrArg Prod.snd (Option.some.inj h)]
          exact ih c' f' hcs'
        · rw [if_neg hlt] at h
          obtain ⟨rfl, rfl⟩ : a = c ∧ fa = f := by
            constructor <;> [exact congrArg Prod.fst (Option.some.inj h);
              exact congrArg Prod.snd (Option.some.inj h)]
          exact ha

lemma selectBest_max (r : Requirements) :
    ∀ cs c f, selectBest r cs = some (c, f) →
      ∀ x ∈ cs, conformant r x = true →
        x.deviceType.score ≤ c.deviceType.score := by
  intro cs
  induction cs with
  | nil => intro c f h; simp [selectBest] at h
  | cons a cs' ih =>
    intro c f h x hx hxconf
    cases ha : pickFamily r a.families with
    | none =>
      simp only [selectBest, ha] at h
      rcases List.mem_cons.mp hx with rfl | hxs
      · exfalso
        rw [(conformant_eq_false_iff r x).mpr ha] at hxconf
        exact Bool.false_ne_true hxconf
      · exact ih c f h x hxs hxconf
    | some fa =>
      cases hcs' : selectBest r cs' with
      | none =>
        simp only [selectBest, ha, hcs'] at h
        obtain ⟨rfl, rfl⟩ : a = c ∧ fa = f := by
          constructor <;> [exact congrArg Prod.fst (Option.some.inj h);
            exact congrArg Prod.snd (Option.some.inj h)]
        rcases List.mem_cons.mp hx with rfl | hxs
        · exact le_refl _
        · exfalso
          rw [selectBest_none r cs' hcs' x hxs] at hxconf
          exact Bool.false_ne_true hxconf
      | some p =>
        obtain ⟨c', f'⟩ := p
        simp only [selectBest, ha, hcs'] at h
        by_cases hlt : a.deviceType.score < c'.deviceType.score
        · rw [if_pos hlt] at h
          obtain ⟨rfl, rfl⟩ : c' = c ∧ f' = f := by
            constructor <;> [exact congrArg Prod.fst (Option.some.inj h);
              exact congrArg Prod.snd (Option.some.inj h)]
          rcases List.mem_cons.mp hx with rfl | hxs
          · exact le_of_lt hlt
          · exact ih c' f' hcs' x hxs hxconf
        · rw [if_neg hlt] at h
          obtain ⟨rfl, rfl⟩ : a = c ∧ fa = f := by
            constructor <;> [exact congrArg Prod.fst (Option.some.inj h);
              exact congrArg Prod.snd (Option.some.inj h)]
          rcases List.mem_cons.mp hx with rfl | hxs
          · exact le_refl _
          · exact le_trans (ih c' f' hcs' x hxs hxconf) (not_lt.mp hlt)

lemma selectBest_first_max (r : Requirements) :
    ∀ cs c f, selectBest r cs = some (c, f) →
      ∃ l1 l2, cs = l1 ++ c :: l2 ∧
        (∀ x ∈ l1, conformant r x = true →
          x.deviceType.score < c.deviceType.score) ∧
        (∀ x ∈ l2, conformant r x = true →
          x.deviceType.score ≤ c.deviceType.score) := by
  intro cs
  induction cs with
  | nil => intro c f h; simp [selectBest] at h
  | cons a cs' ih =>
    intro c f h
    cases ha : pickFamily r a.families with
    | none =>
      simp only [selectBest, ha] at h
      obtain ⟨l1, l2, heq, h1, h2⟩ := ih c f h
      refine ⟨a :: l1, l2, by rw [heq]; rfl, ?_, h2⟩
      intro x hx hxconf
      rcases List.mem_cons.mp hx with rfl | hxs
      · exfalso
        rw [(conformant_eq_false_iff r x).mpr ha] at hxconf
        exact Bool.false_ne_true hxconf
      · exact h1 x hxs hxconf
    | some fa =>
      cases hcs' : selectBest r cs' with
      | none =>
        simp only [selectBest, ha, hcs'] at h
        obtain ⟨rfl, rfl⟩ : a = c ∧ fa = f := by
          constructor <;> [exact congrArg Prod.fst (Option.some.inj h);
            exact congrArg Prod.snd (Option.some.inj h)]
        refine ⟨[], cs', rfl, ?_, ?_⟩
        · intro x hx; cases hx
        · intro x hxs hxconf
          exfalso
          rw [selectBest_none r cs' hcs' x hxs] at hxconf
          exact Bool.false_ne_true hxconf
      | some p =>
        obtain ⟨c', f'⟩ := p
        simp only [selectBest, ha, hcs'] at h
        by_cases hlt : a.deviceType.score < c'.deviceType.score
        · rw [if_pos hlt] at h
          obtain ⟨rfl, rfl⟩ : c' = c ∧ f' = f := by
            constructor <;> [exact congrArg Prod.fst (Option.some.inj h);
              exact congrArg Prod.snd (Option.some.inj h)]
          obtain ⟨l1, l2, heq, h1, h2⟩ := ih c' f' hcs'
          refine ⟨a :: l1, l2, by rw [heq]; rfl, ?_, h2⟩
          intro x hx hxconf
          rcases List.mem_cons.mp hx with rfl | hxs
          · exact hlt
          · exact h1 x hxs hxconf
        · rw [if_neg hlt] at h
          obtain ⟨rfl, rfl⟩ : a = c ∧ fa = f := by
            constructor <;> [exact congrArg Prod.fst (Option.some.inj h);
              exact congrArg Prod.snd (Option.some.inj h)]
          refine ⟨[], cs', rfl, ?_, ?_⟩
          · intro x hx; cases hx
          · intro x hxs hxconf
            exact le_trans (selectBest_max r cs' c' f' hcs' x hxs hxconf)
              (not_lt.mp hlt)

/-! ## Concrete fixtures (from the example programs) -/

/-- An engine context with opaque handles, as produced by
`ComputeEngine::new()`. -/
def engine0 : ComputeEngine :=
  { inst := 0, logicalDevice := { device := 0, queueFamilyIndex := 0 },
    commandBufferAllocator := 0 }

def emptyBuf : Buf := { len := 0, data := fun _ => 0 }

/-- GPU memory of example 002: buffer 0 is the 64-element source
`(0..64).collect()`, buffer 1 the 64-element zeroed destination. -/
def gpu002 : GpuState :=
  { buffers := fun i =>
      if i = 0 then { len := 64, data := fun j => (j : Int) }
      else if i = 1 then { len := 64, data := fun _ => 0 }
      else emptyBuf }

/-- GPU memory of example 003: buffer 0 holds the 65536 elements `0..65536`. -/
def gpu003 : GpuState :=
  { buffers := fun i =>
      if i = 0 then { len := 65536, data := fun j => (j : Int) }
      else emptyBuf }

/-- GPU memory with no allocated buffers. -/
def gpu0 : GpuState := { buffers := fun _ => emptyBuf }

/-- The recording of example 002: one full-buffer copy from buffer 0 to
buffer 1. -/
def copyRecordFn : RecordFn := fun _ => .ok [.copyBuffer 0 1]

/-- Modelled from the spec: `shaders/003_computing.comp` is absent from the
checkout; the design document states that each element's value is computed as
`index * 12`. -/
def shader003 : Nat → Int → Int := fun i _ => (i : Int) * 12

/-- The recording of example 003: one compute dispatch covering buffer 0. -/
def dispatchRecordFn : RecordFn := fun _ => .ok [.dispatch 0 shader003]

/-- A recording callback that fails while building the recording. -/
def failRecordFn : RecordFn := fun _ => .error .recordingError

/-- The recording of example 001: an empty one-time-submit command buffer. -/
def noopRecordFn : RecordFn := fun _ => .ok []

/-! ## Claim theorems: submission protocol -/

/-- C1: a `compute`/`run` call whose recording copies a source buffer into an
equally sized destination does not return success until the copy has
executed: immediately after the call returns, the destination contents equal
the source contents element-for-element, with no retry or delay by the
caller. -/
theorem compute_copy_readback (e : ComputeEngine) (s : SyncState)
    (g : GpuState) (src dst : Nat) (hne : src ≠ dst)
    (hlen : (g.buffers src).len = (g.buffers dst).len) :
    (e.compute s g (fun _ => .ok [.copyBuffer src dst])).result = .ok () ∧
    ∀ j < (g.buffers dst).len,
      (((e.compute s g (fun _ => .ok [.copyBuffer src dst])).gpu).buffers
          dst).data j =
        (((e.compute s g (fun _ => .ok [.copyBuffer src dst])).gpu).buffers
          src).data j := by
  refine ⟨rfl, ?_⟩
  intro j hj
  show ((execRecording [.copyBuffer src dst] g).buffers dst).data j =
    ((execRecording [.copyBuffer src dst] g).buffers src).data j
  simp only [execRecording, List.foldl_cons, List.foldl_nil, execCommand]
  rw [if_pos trivial, if_neg hne]
  simp only
  rw [if_pos (hlen ▸ hj)]

/-- C1 witness: the 64-element scenario of example 002 at element 7. -/
theorem compute_copy_readback_witness :
    (((engine0.compute SyncState.initial gpu002 copyRecordFn).gpu).buffers
        1).data 7 =
      (((engine0.compute SyncState.initial gpu002 copyRecordFn).gpu).buffers
        0).data 7 :=
  (compute_copy_readback engine0 SyncState.initial gpu002 0 1 (by decide)
    rfl).2 7 (by decide)

/-- C3: a `compute`/`run` call dispatching the 003 compute shader over a
65536-element buffer leaves element `n` equal to `n * 12` for every `n` in
range, immediately after the call returns. -/
theorem compute_dispatch_times12 (e : ComputeEngine) (s : SyncState)
    (g : GpuState) (b : Nat) (hlen : (g.buffers b).len = 65536) :
    (e.compute s g (fun _ => .ok [.dispatch b shader003])).result = .ok () ∧
    ∀ n < 65536,
      (((e.compute s g (fun _ => .ok [.dispatch b shader003])).gpu).buffers
          b).data n = (n : Int) * 12 := by
  refine ⟨rfl, ?_⟩
  intro n hn
  show ((execRecording [.dispatch b shader003] g).buffers b).data n =
    (n : Int) * 12
  simp only [execRecording, List.foldl_cons, List.foldl_nil, execCommand]
  rw [if_pos trivial]
  simp only
  rw [if_pos (hlen ▸ hn)]
  rfl

/-- C3 witness: the 65536-element scenario of example 003 at element 7. -/
theorem compute_dispatch_times12_witness :
    (((engine0.compute SyncState.initial gpu003 dispatchRecordFn).gpu).buffers
        0).data 7 = 84 :=
  (compute_dispatch_times12 engine0 SyncState.initial gpu003 0 rfl).2 7
    (by decide)

/-- C7: a no-op recording (empty command sequence) always succeeds and leaves
every buffer unchanged. -/
theorem compute_noop_succeeds_unchanged (e : ComputeEngine) (s : SyncState)
    (g : GpuState) :
    (e.compute s g noopRecordFn).result = .ok () ∧
    ∀ i, (e.compute s g noopRecordFn).gpu.buffers i = g.buffers i :=
  ⟨rfl, fun _ => rfl⟩

/-- C8: `kill` (the spec's `shutdown`) on an engine with zero prior
submissions — hence no outstanding ticket — is a no-op that succeeds
immediately: the sync state is untouched, no teardown wait happens, and the
result is success. -/
theorem kill_zero_submissions_noop (e : ComputeEngine) (s : SyncState)
    (hsub : s.submissions = 0) (hout : s.outstanding = false) :
    e.kill s = (s, [], .ok ()) := by
  simp [ComputeEngine.kill, hout]

/-- C8 witness: the freshly constructed engine of example 001. -/
theorem kill_zero_submissions_noop_witness :
    engine0.kill SyncState.initial = (SyncState.initial, [], .ok ()) :=
  kill_zero_submissions_noop engine0 SyncState.initial rfl rfl

/-- C9: `compute` takes the engine by shared reference and hands the callback
only a shared reference, so the engine's observable state — instance, logical
device, selected queue family index, command-buffer allocator — is identical
before and after every call. -/
theorem compute_preserves_engine_context (e : ComputeEngine) (s : SyncState)
    (g : GpuState) (f : RecordFn) :
    (e.compute s g f).engine.get_instance = e.get_instance ∧
    (e.compute s g f).engine.get_logical_device = e.get_logical_device ∧
    (e.compute s g f).engine.get_logical_device.get_queue_family_index =
      e.get_logical_device.get_queue_family_index ∧
    (e.compute s g f).engine.get_command_buffer_allocator =
      e.get_command_buffer_allocator := by
  have he : (e.compute s g f).engine = e := by
    cases h : f e <;> simp [ComputeEngine.compute, h]
  rw [he]
  exact ⟨rfl, rfl, rfl, rfl⟩

lemma pending_take_le_of_bounded (l : List Event) (k : Nat)
    (h : ∀ n ≤ l.length, pending (l.take n) ≤ k) :
    ∀ n, pending (l.take n) ≤ k := by
  intro n
  rcases le_or_lt n l.length with hn | hn
  · exact h n hn
  · rw [List.take_of_length_le (le_of_lt hn)]
    have hl := h l.length le_rfl
    rwa [List.take_length] at hl

/-- C6: in every `compute`/`run` call the recording callback is invoked
synchronously exactly once — its invocation is the unique `recordStart`
event of the call's trace — and if building the recording fails the whole
call aborts with nothing submitted to the queue: no `submit` event, the
error is returned, and GPU memory and sync state are untouched. -/
theorem compute_invokes_record_once (e : ComputeEngine) (s : SyncState)
    (g : GpuState) (f : RecordFn) :
    (e.compute s g f).trace.count .recordStart = 1 ∧
    ∀ err, f e = .error err →
      (e.compute s g f).trace.count .submit = 0 ∧
      (e.compute s g f).result = .error err ∧
      (e.compute s g f).gpu = g ∧ (e.compute s g f).sync = s := by
  constructor
  · cases h : f e <;> simp [ComputeEngine.compute, h, List.count_cons]
  · intro err herr
    refine ⟨?_, ?_, ?_, ?_⟩ <;>
      simp [ComputeEngine.compute, herr, List.count_cons, List.count_nil]

/-- C6 witness: a failing recording callback on the fixture engine. -/
theorem compute_invokes_record_once_witness :
    (engine0.compute SyncState.initial gpu0 failRecordFn).trace.count
        .recordStart = 1 ∧
      (engine0.compute SyncState.initial gpu0 failRecordFn).trace.count
        .submit = 0 ∧
      (engine0.compute SyncState.initial gpu0 failRecordFn).result =
        .error .recordingError :=
  ⟨(compute_invokes_record_once engine0 SyncState.initial gpu0
      failRecordFn).1,
    ((compute_invokes_record_once engine0 SyncState.initial gpu0
      failRecordFn).2 .recordingError rfl).1,
    ((compute_invokes_record_once engine0 SyncState.initial gpu0
      failRecordFn).2 .recordingError rfl).2.1⟩

/-- C4: two sequential `compute`/`run` calls on the same engine have
non-overlapping execution windows: the combined trace is the first call's
trace followed by the second's, the first call's trace has no pending
submission left by its end (its wait has resolved before the call returns),
the second call's trace begins with its recording step, and no trace prefix
ever holds more than one outstanding submission ticket. -/
theorem computeTwice_serialized (e : ComputeEngine) (s : SyncState)
    (g : GpuState) (f1 f2 : RecordFn) :
    (e.computeTwice s g f1 f2).trace =
      (e.compute s g f1).trace ++
        ((e.compute s g f1).engine.compute (e.compute s g f1).sync
          (e.compute s g f1).gpu f2).trace ∧
    pending (e.compute s g f1).trace = 0 ∧
    ((e.compute s g f1).engine.compute (e.compute s g f1).sync
        (e.compute s g f1).gpu f2).trace.head? = some .recordStart ∧
    ∀ n, pending ((e.computeTwice s g f1 f2).trace.take n) ≤ 1 := by
  refine ⟨rfl, ?_, ?_, ?_⟩
  · cases h1 : f1 e <;> simp [ComputeEngine.compute, h1, pending]
  · have he : (e.compute s g f1).engine = e := by
      cases h1 : f1 e <;> simp [ComputeEngine.compute, h1]
    rw [he]
    cases h2 : f2 e <;> simp [ComputeEngine.compute, h2]
  · cases h1 : f1 e <;> cases h2 : f2 e <;>
      simp only [ComputeEngine.computeTwice, ComputeEngine.compute, h1, h2] <;>
      refine pending_take_le_of_bounded _ 1 ?_ <;> decide

/-! ## Claim theorems: device selection -/

/-- C2: `select` is a pure function of the enumeration order and
requirements (hence deterministic), and when it succeeds it returns a
conformant candidate that scores at least as high as every conformant
candidate, strictly higher than every conformant candidate enumerated before
it (ties broken by first-enumerated); within that candidate the returned
queue family satisfies the requirements and is the most specialized one —
minimal in supported-but-unrequired flags, ties broken by lowest family
index. -/
theorem select_correct (cands : List PhysicalDeviceCandidate)
    (r : Requirements) (c : PhysicalDeviceCandidate)
    (sel : QueueFamilySelection) (h : select cands r = .ok (c, sel)) :
    conformant r c = true ∧
    (∃ l1 l2, cands = l1 ++ c :: l2 ∧
      (∀ x ∈ l1, conformant r x = true →
        x.deviceType.score < c.deviceType.score) ∧
      (∀ x ∈ l2, conformant r x = true →
        x.deviceType.score ≤ c.deviceType.score)) ∧
    (∃ f ∈ c.families, familySatisfies r f = true ∧ sel = f.toSelection ∧
      ∀ g ∈ c.families, familySatisfies r g = true →
        extraFlags r f < extraFlags r g ∨
          (extraFlags r f = extraFlags r g ∧ f.index ≤ g.index)) := by
  cases hsb : selectBest r cands with
  | none => simp only [select, hsb] at h; cases h
  | some p =>
    obtain ⟨c0, f0⟩ := p
    simp only [select, hsb] at h
    have hc : c0 = c := congrArg Prod.fst (Except.ok.inj h)
    have hsel : f0.toSelection = sel := congrArg Prod.snd (Except.ok.inj h)
    subst hc
    have hpick := selectBest_pickFamily r cands c0 f0 hsb
    have hmem := pickFamily_mem_of_some r c0.families f0 hpick
    refine ⟨List.any_eq_true.mpr ⟨f0, hmem.1, hmem.2⟩,
      selectBest_first_max r cands c0 f0 hsb,
      ⟨f0, hmem.1, hmem.2, hsel.symm, pickFamily_minimal r c0.families f0
        hpick⟩⟩

/-- A compute-only queue family at index 0, used by the mock enumeration. -/
def famCompute : QueueFamily :=
  { index := 0, compute := true, graphics := false, transfer := false,
    queueCount := 1 }

/-- A graphics-only queue family at index 0. -/
def famGraphics : QueueFamily :=
  { index := 0, compute := false, graphics := true, transfer := false,
    queueCount := 1 }

/-- The mock integrated GPU of the design document's example enumeration. -/
def candIntegrated : PhysicalDeviceCandidate :=
  { deviceType := .integrated, families := [famCompute] }

/-- The mock discrete GPU of the design document's example enumeration. -/
def candDiscrete : PhysicalDeviceCandidate :=
  { deviceType := .discrete, families := [famCompute] }

/-- A discrete GPU exposing only a graphics-only family. -/
def candGraphicsOnly : PhysicalDeviceCandidate :=
  { deviceType := .discrete, families := [famGraphics] }

/-- Compute-engine requirements: compute needed, graphics not. -/
def reqCompute : Requirements := { needsCompute := true, needsGraphics := false }

/-- C2 witness: the design document's mock enumeration {integrated score 50,
discrete score 100} — the discrete GPU is chosen with its compute family. -/
theorem select_correct_witness :
    conformant reqCompute candDiscrete = true ∧
    (∃ l1 l2, [candIntegrated, candDiscrete] = l1 ++ candDiscrete :: l2 ∧
      (∀ x ∈ l1, conformant reqCompute x = true →
        x.deviceType.score < candDiscrete.deviceType.score) ∧
      (∀ x ∈ l2, conformant reqCompute x = true →
        x.deviceType.score ≤ candDiscrete.deviceType.score)) ∧
    (∃ f ∈ candDiscrete.families, familySatisfies reqCompute f = true ∧
      famCompute.toSelection = f.toSelection ∧
      ∀ g ∈ candDiscrete.families, familySatisfies reqCompute g = true →
        extraFlags reqCompute f < extraFlags reqCompute g ∨
          (extraFlags reqCompute f = extraFlags reqCompute g ∧
            f.index ≤ g.index)) :=
  select_correct [candIntegrated, candDiscrete] reqCompute candDiscrete
    famCompute.toSelection rfl

/-- C5: whenever no enumerated candidate has a queue family satisfying the
requirements, `select` fails with `NoSuitableDeviceError` — it never returns
a (even partially valid) selection. -/
theorem select_fails_when_no_conformant (cands : List PhysicalDeviceCandidate)
    (r : Requirements) (h : ∀ c ∈ cands, conformant r c = false) :
    select cands r = .error .noSuitableDeviceError := by
  cases hsb : selectBest r cands with
  | none => simp [select, hsb]
  | some p =>
    obtain ⟨c, f⟩ := p
    exfalso
    obtain ⟨l1, l2, heq, -, -⟩ := selectBest_first_max r cands c f hsb
    have hc : c ∈ cands := heq ▸ List.mem_append_right l1 (List.mem_cons_self c l2)
    have hpick := selectBest_pickFamily r cands c f hsb
    rw [(conformant_eq_false_iff r c).mp (h c hc)] at hpick
    cases hpick

/-- C5 witness: a compute requirement against an enumeration exposing only a
graphics-only queue family. -/
theorem select_fails_when_no_conformant_witness :
    select [candGraphicsOnly] reqCompute = .error .noSuitableDeviceError :=
  select_fails_when_no_conformant [candGraphicsOnly] reqCompute (by decide)

/-! ## Claim theorem: `SVertex` equality (src/s_vertex.rs) -/

/-- C10: the derived `PartialEq` on `SVertex` is componentwise on its single
field `position` under IEEE-754 `f32` equality; a vertex whose position
contains a NaN component is not equal to itself; and the `Zeroable`-derived
zero vertex has position `[0.0, 0.0]` (both components the bit pattern of
`+0.0`). -/
theorem svertex_eq_componentwise :
    (∀ a b : SVertex, SVertex.beq a b =
      (f32Beq a.position.1 b.position.1 && f32Beq a.position.2 b.position.2)) ∧
    (∀ a : SVertex,
      f32IsNan a.position.1 = true ∨ f32IsNan a.position.2 = true →
        SVertex.beq a a = false) ∧
    SVertex.zeroed.position = (0, 0) := by
  refine ⟨fun a b => rfl, ?_, rfl⟩
  intro a h
  rcases h with h | h <;> simp [SVertex.beq, f32Beq, h]

/-- A vertex whose first position component is the canonical quiet NaN. -/
def nanVertex : SVertex := { position := (0x7FC00000, 0) }

/-- C10 witness: the quiet-NaN vertex is not equal to itself. -/
theorem svertex_eq_componentwise_witness :
    SVertex.beq nanVertex nanVertex = false :=
  svertex_eq_componentwise.2.1 nanVertex (Or.inl (by decide))

end VulkanEngine
